import Mathlib

/-!
Verification of the `file-manager` interactive shell (src/index.js).

The program is a readline loop: each input line is trimmed, split on single
spaces into a verb and arguments, and dispatched to a handler.  Session state
is one mutable value, the current directory, initialised to the user's home
directory.  Handlers resolve path arguments with `path.resolve(currentDir, arg)`
and delegate to `fs` / `crypto` / `zlib` platform calls.

Shallow embedding decisions, recorded once here:

* Paths are normalised absolute POSIX paths, represented as `List String` of
  segments; `[]` is the filesystem root `/`.  `resolvePath` models
  `path.resolve(base, p)` including `.` / `..` collapsing.
* The filesystem is an association list from paths to entries (regular file
  with byte content, directory, or symbolic link), plus a set of paths on
  which write / unlink / rename operations fail with a permission error
  (`denied`); this models EACCES-style failures the spec talks about.
  Symbolic-link following on read/write is not modelled (no claim needs it);
  `fs.lstat`, which the code uses for `cd`, does not follow links.
* Stream pipelines (`cat`, `cp`, `hash`, `compress`, `decompress`) are
  modelled as atomic whole-content transformations: read the source content
  from the pre-state, transform, write the destination.  Event interleaving
  of chunked streams is out of scope of the embedding.
* A JavaScript exception that escapes a handler (`path.resolve` on an
  `undefined` argument throws a TypeError outside every `try` except in
  `changeDirectory`; stream `error` events without listeners in
  `compressFile` / `decompressFile`) is modelled by the `thrown` flag of an
  `Outcome`: the handler produced no output and its promise rejected.
* `console.log` output is modelled as a list of printed strings.
-/

set_option maxRecDepth 4000

namespace FileManager

/-- Absolute normalised POSIX path: list of segments, `[]` is the root `/`. -/
abbrev FmPath := List String

/-- Render a path the way the program prints it. -/
def pathToString (p : FmPath) : String :=
  if p = [] then "/" else String.join (p.map (fun s => "/" ++ s))

/-- Collapse path segments onto an accumulator: `path.resolve` normalisation.
Empty and `.` segments are skipped, `..` pops one segment (a no-op at the
root), anything else is appended. -/
def normSegs (acc : FmPath) : List String → FmPath
  | [] => acc
  | s :: rest =>
    if s = "" ∨ s = "." then normSegs acc rest
    else if s = ".." then normSegs acc.dropLast rest
    else normSegs (acc ++ [s]) rest

/-- Split a character list on `/`, keeping empty fields, never empty. -/
def splitSlash : List Char → List (List Char)
  | [] => [[]]
  | c :: r =>
    if c = '/' then [] :: splitSlash r
    else match splitSlash r with
      | [] => [[c]]
      | t :: ts => (c :: t) :: ts

/-- Model of `path.resolve(base, p)` on POSIX: an absolute `p` (leading `/`)
replaces the base, otherwise `p` is resolved against the base; `.` and `..`
segments are collapsed. -/
def resolvePath (base : FmPath) (p : String) : FmPath :=
  let segs := (splitSlash p.toList).map (fun l => String.mk l)
  match p.toList with
  | '/' :: _ => normSegs [] segs
  | _ => normSegs base segs

/-- A directory entry: regular file with byte content, directory, or symbolic
link (target stored as a resolved path). -/
inductive Entry where
  | file (content : List Nat)
  | dir
  | symlink (target : FmPath)
  deriving DecidableEq, Repr

/-- Is the entry a directory?  Models `Stats.isDirectory()`; note a symlink is
not a directory under `lstat` semantics. -/
def Entry.isDirectory : Entry → Bool
  | .dir => true
  | _ => false

/-- Filesystem state: entries keyed by absolute path, plus the set of paths on
which mutating operations fail with a permission error. -/
structure FS where
  entries : List (FmPath × Entry)
  denied : List FmPath
  deriving DecidableEq, Repr

/-- First entry with the given key in an association list. -/
def lookupEntries : List (FmPath × Entry) → FmPath → Option Entry
  | [], _ => none
  | (q, e) :: rest, p => if q = p then some e else lookupEntries rest p

/-- Entry stored at path `p`, if any (the root `/` itself is not stored). -/
def lookupFS (fs : FS) (p : FmPath) : Option Entry :=
  lookupEntries fs.entries p

/-- Replace or create the entry at `p`. -/
def setEntry (fs : FS) (p : FmPath) (e : Entry) : FS :=
  { fs with entries := (p, e) :: fs.entries.filter (fun q => ¬ q.1 = p) }

/-- Remove the entry at `p`. -/
def removeEntry (fs : FS) (p : FmPath) : FS :=
  { fs with entries := fs.entries.filter (fun q => ¬ q.1 = p) }

/-- Does `p` denote an existing directory (the root always does)? -/
def isDirAt (fs : FS) (p : FmPath) : Bool :=
  p = [] ∨ lookupFS fs p = some .dir

/-- Model of `fs.lstat`: the entry at the path itself, without following a
symbolic link; `none` models the ENOENT rejection. -/
def lstatEntry (fs : FS) (p : FmPath) : Option Entry :=
  if p = [] then some .dir else lookupFS fs p

/-- Model of `fs.writeFile(p, c)` (and of a write stream writing `c`):
truncates / overwrites an existing regular file, creates the file when the
parent directory exists; fails (`none`) on permission denial, on a directory
or symlink at `p`, or when the parent is missing. -/
def fsWriteFile (fs : FS) (p : FmPath) (c : List Nat) : Option FS :=
  if p ∈ fs.denied then none
  else if p = [] then none
  else match lookupFS fs p with
  | some (.file _) => some (setEntry fs p (.file c))
  | some .dir => none
  | some (.symlink _) => none
  | none => if isDirAt fs p.dropLast then some (setEntry fs p (.file c)) else none

/-- Model of `fs.unlink(p)`: removes a regular file or a symlink; fails on a
directory (EISDIR/EPERM), a missing entry, or permission denial. -/
def fsUnlink (fs : FS) (p : FmPath) : Option FS :=
  if p ∈ fs.denied then none
  else match lookupFS fs p with
  | some (.file _) => some (removeEntry fs p)
  | some (.symlink _) => some (removeEntry fs p)
  | _ => none

/-- Model of `fs.rename(old, new)`: moves the entry, overwriting a plain
destination entry; fails when the source is missing or either side is
permission-denied. -/
def fsRename (fs : FS) (old new : FmPath) : Option FS :=
  if old ∈ fs.denied ∨ new ∈ fs.denied then none
  else match lookupFS fs old with
  | none => none
  | some e => if new = [] then none else some (setEntry (removeEntry fs old) new e)

/-- Model of reading a whole regular file (a read stream drained to the end);
`none` models the stream `error` event (missing file, directory, …). -/
def fsReadFile (fs : FS) (p : FmPath) : Option (List Nat) :=
  match lookupFS fs p with
  | some (.file c) => some c
  | _ => none

theorem lookupEntries_filter_ne (l : List (FmPath × Entry)) (p q : FmPath)
    (h : q ≠ p) :
    lookupEntries (l.filter (fun r => ¬ r.1 = p)) q = lookupEntries l q := by
  induction l with
  | nil => rfl
  | cons hd tl ih =>
    obtain ⟨k, e⟩ := hd
    by_cases hk : k = p
    · have hkq : ¬ k = q := fun hc => h (by rw [← hc, hk])
      simp_all [List.filter_cons, lookupEntries]
    · by_cases hq : k = q
      · simp_all [List.filter_cons, lookupEntries]
      · simp_all [List.filter_cons, lookupEntries]

theorem lookupEntries_filter_self (l : List (FmPath × Entry)) (p : FmPath) :
    lookupEntries (l.filter (fun r => ¬ r.1 = p)) p = none := by
  induction l with
  | nil => rfl
  | cons hd tl ih =>
    obtain ⟨k, e⟩ := hd
    by_cases hk : k = p
    · simp_all [List.filter_cons]
    · simp_all [List.filter_cons, lookupEntries]

theorem lookupFS_setEntry (fs : FS) (p : FmPath) (e : Entry) (q : FmPath) :
    lookupFS (setEntry fs p e) q = if q = p then some e else lookupFS fs q := by
  unfold lookupFS setEntry
  by_cases h : q = p
  · subst h
    simp [lookupEntries]
  · have hpq : ¬ p = q := fun hc => h hc.symm
    rw [if_neg h]
    simp only [lookupEntries]
    rw [if_neg hpq]
    exact lookupEntries_filter_ne fs.entries p q h

theorem lookupFS_removeEntry (fs : FS) (p : FmPath) (q : FmPath) :
    lookupFS (removeEntry fs p) q = if q = p then none else lookupFS fs q := by
  unfold lookupFS removeEntry
  by_cases h : q = p
  · subst h
    rw [if_pos rfl]
    exact lookupEntries_filter_self fs.entries q
  · rw [if_neg h]
    exact lookupEntries_filter_ne fs.entries p q h

/-! ### Lossless codec standing for `zlib.createBrotliCompress` / `createBrotliDecompress`

The Brotli codec itself is platform code (Node's `zlib`), outside this
repository; the only property of it the program relies on is that the pair is
a lossless codec: decompressing the compressor's output restores the input
byte-for-byte, and streams that are not valid compressor output may fail to
decode (an `error` event).  We model it by a concrete run-length codec with
exactly that interface: `brotliCompress` is total, `brotliDecompress` is
partial (`Option`), and the round-trip law `rle_roundtrip` holds. -/

/-- Length of the initial run of byte `b`, capped by `cap`. -/
def runLen (b : Nat) : Nat → List Nat → Nat
  | _, [] => 0
  | 0, _ :: _ => 0
  | cap + 1, x :: r => if x = b then runLen b cap r + 1 else 0

theorem runLen_le (b cap : Nat) (l : List Nat) : runLen b cap l ≤ l.length := by
  induction l generalizing cap with
  | nil => simp [runLen]
  | cons x r ih =>
    cases cap with
    | zero => simp [runLen]
    | succ c =>
      simp only [runLen, List.length_cons]
      split
      · exact Nat.succ_le_succ (ih c)
      · exact Nat.zero_le _

theorem runLen_spec (b cap : Nat) (l : List Nat) :
    List.replicate (runLen b cap l) b ++ l.drop (runLen b cap l) = l := by
  induction l generalizing cap with
  | nil => simp [runLen]
  | cons x r ih =>
    cases cap with
    | zero => simp [runLen]
    | succ c =>
      by_cases hx : x = b
      · subst hx
        have hr : runLen x (c + 1) (x :: r) = runLen x c r + 1 := by
          simp [runLen]
        rw [hr, List.replicate_succ, List.cons_append, List.drop_succ_cons]
        exact congrArg (List.cons x) (ih c)
      · simp [runLen, hx]

/-- Structural worker for `rleEncode`; the fuel bounds the list length, so
the zero-fuel non-nil case is never reached from `rleEncode`. -/
def rleEncodeGo : Nat → List Nat → List Nat
  | _, [] => []
  | 0, _ :: _ => []
  | fuel + 1, b :: r =>
    (runLen b 254 r + 1) :: b :: rleEncodeGo fuel (r.drop (runLen b 254 r))

/-- Run-length encoder: each run is emitted as a count byte (1 to 255)
followed by the byte value. -/
def rleEncode (l : List Nat) : List Nat := rleEncodeGo l.length l

/-- Run-length decoder, partial inverse of `rleEncode`: rejects a truncated
pair or a zero count (such bytes are never produced by the encoder). -/
def rleDecode : List Nat → Option (List Nat)
  | [] => some []
  | [_] => none
  | n :: b :: r =>
    if n = 0 then none
    else (rleDecode r).map (fun d => List.replicate n b ++ d)

theorem rleEncodeGo_roundtrip : ∀ fuel, ∀ l : List Nat, l.length ≤ fuel →
    rleDecode (rleEncodeGo fuel l) = some l := by
  intro fuel
  induction fuel with
  | zero =>
    intro l hl
    have hnil : l = [] := List.eq_nil_of_length_eq_zero (Nat.le_zero.mp hl)
    subst hnil
    simp [rleEncodeGo, rleDecode]
  | succ n ih =>
    intro l hl
    cases l with
    | nil => simp [rleEncodeGo, rleDecode]
    | cons b r =>
      rw [rleEncodeGo]
      rw [rleDecode]
      rw [if_neg (by omega)]
      have hrec : rleDecode (rleEncodeGo n (r.drop (runLen b 254 r))) =
          some (r.drop (runLen b 254 r)) := by
        refine ih _ ?_
        simp only [List.length_drop]
        simp only [List.length_cons] at hl
        omega
      rw [hrec]
      simp only [Option.map_some']
      congr 1
      calc List.replicate (runLen b 254 r + 1) b ++ r.drop (runLen b 254 r)
          = b :: (List.replicate (runLen b 254 r) b ++
              r.drop (runLen b 254 r)) := by
            simp [List.replicate_succ]
        _ = b :: r := by rw [runLen_spec b 254 r]

theorem rle_roundtrip (l : List Nat) : rleDecode (rleEncode l) = some l :=
  rleEncodeGo_roundtrip l.length l le_rfl

/-- Stands for the platform Brotli compressor (see the section comment). -/
def brotliCompress (data : List Nat) : List Nat := rleEncode data

/-- Stands for the platform Brotli decompressor; `none` is a stream error. -/
def brotliDecompress (data : List Nat) : Option (List Nat) := rleDecode data

theorem brotli_roundtrip (data : List Nat) :
    brotliDecompress (brotliCompress data) = some data :=
  rle_roundtrip data

/-! ### Tokenizing an input line

The loop does `input.trim().split(' ')`.  `jsTrim` models
`String.prototype.trim` (strip leading and trailing whitespace) and `splitSp`
models `String.prototype.split(' ')`: split on every single space, keeping
empty fields, and always returning at least one field. -/

/-- Model of `String.prototype.trim`. -/
def jsTrim (s : String) : String :=
  String.mk (((s.toList.dropWhile Char.isWhitespace).reverse.dropWhile
    Char.isWhitespace).reverse)

/-- Model of `String.prototype.split(' ')` on the character list. -/
def splitSp : List Char → List (List Char)
  | [] => [[]]
  | c :: r =>
    if c = ' ' then [] :: splitSp r
    else match splitSp r with
      | [] => [[c]]
      | t :: ts => (c :: t) :: ts

/-- The verb and argument list extracted from an input line, as in
`const [command, ...args] = input.trim().split(' ')`. -/
def parseLine (line : String) : String × List String :=
  match (splitSp (jsTrim line).toList).map (fun l => String.mk l) with
  | [] => ("", [])
  | cmd :: rest => (cmd, rest)

theorem jsTrim_all_whitespace (line : String)
    (h : ∀ c ∈ line.toList, c.isWhitespace) : jsTrim line = "" := by
  unfold jsTrim
  have hd : line.toList.dropWhile Char.isWhitespace = [] :=
    List.dropWhile_eq_nil_iff.mpr h
  rw [hd]
  rfl

/-! ### SHA-256 (FIPS 180-4)

`calculateHash` feeds the file's bytes through `crypto.createHash('sha256')`
and prints `hash.digest('hex')`.  The digest algorithm is embedded here in
full: 32-bit words are naturals reduced mod `2^32`. -/

/-- Reduce to a 32-bit word. -/
def w32 (x : Nat) : Nat := x % 4294967296

/-- Right rotation of a 32-bit word by `n` bits. -/
def rotr (n x : Nat) : Nat := w32 (x / 2 ^ n + x % 2 ^ n * 2 ^ (32 - n))

/-- Logical right shift. -/
def shr (n x : Nat) : Nat := x / 2 ^ n

/-- Bitwise complement of a 32-bit word. -/
def notW (x : Nat) : Nat := 4294967295 - w32 x

def bigSigma0 (x : Nat) : Nat := (rotr 2 x ^^^ rotr 13 x) ^^^ rotr 22 x
def bigSigma1 (x : Nat) : Nat := (rotr 6 x ^^^ rotr 11 x) ^^^ rotr 25 x
def smallSigma0 (x : Nat) : Nat := (rotr 7 x ^^^ rotr 18 x) ^^^ shr 3 x
def smallSigma1 (x : Nat) : Nat := (rotr 17 x ^^^ rotr 19 x) ^^^ shr 10 x
def chW (x y z : Nat) : Nat := (x &&& y) ^^^ (notW x &&& z)
def majW (x y z : Nat) : Nat := ((x &&& y) ^^^ (x &&& z)) ^^^ (y &&& z)

/-- The eight working variables of the compression function. -/
structure H8 where
  a : Nat
  b : Nat
  c : Nat
  d : Nat
  e : Nat
  f : Nat
  g : Nat
  h : Nat
  deriving DecidableEq, Repr

/-- SHA-256 round constants. -/
def sha256K : List Nat :=
  [1116352408, 1899447441, 3049323471, 3921009573,
   961987163, 1508970993, 2453635748, 2870763221,
   3624381080, 310598401, 607225278, 1426881987,
   1925078388, 2162078206, 2614888103, 3248222580,
   3835390401, 4022224774, 264347078, 604807628,
   770255983, 1249150122, 1555081692, 1996064986,
   2554220882, 2821834349, 2952996808, 3210313671,
   3336571891, 3584528711, 113926993, 338241895,
   666307205, 773529912, 1294757372, 1396182291,
   1695183700, 1986661051, 2177026350, 2456956037,
   2730485921, 2820302411, 3259730800, 3345764771,
   3516065817, 3600352804, 4094571909, 275423344,
   430227734, 506948616, 659060556, 883997877,
   958139571, 1322822218, 1537002063, 1747873779,
   1955562222, 2024104815, 2227730452, 2361852424,
   2428436474, 2756734187, 3204031479, 3329325298]

/-- SHA-256 initial hash value. -/
def sha256H0 : H8 :=
  ⟨1779033703, 3144134277, 1013904242, 2773480762,
   1359893119, 2600822924, 528734635, 1541459225⟩

/-- One compression round, consuming a `(round constant, schedule word)` pair. -/
def sha256Round (st : H8) (kw : Nat × Nat) : H8 :=
  let t1 := w32 (st.h + bigSigma1 st.e + chW st.e st.f st.g + kw.1 + kw.2)
  let t2 := w32 (bigSigma0 st.a + majW st.a st.b st.c)
  ⟨w32 (t1 + t2), st.a, st.b, st.c, w32 (st.d + t1), st.e, st.f, st.g⟩

/-- Big-endian 32-bit words from groups of four bytes. -/
def toWords : List Nat → List Nat
  | b0 :: b1 :: b2 :: b3 :: rest =>
    (((b0 * 256 + b1) * 256 + b2) * 256 + b3) :: toWords rest
  | _ => []

/-- Next word of the message schedule from the words produced so far. -/
def nextScheduleWord (ws : List Nat) : Nat :=
  let i := ws.length
  w32 (smallSigma1 (ws.getD (i - 2) 0) + ws.getD (i - 7) 0 +
    smallSigma0 (ws.getD (i - 15) 0) + ws.getD (i - 16) 0)

/-- Extend the message schedule by `n` further words. -/
def extendSchedule (ws : List Nat) : Nat → List Nat
  | 0 => ws
  | n + 1 => extendSchedule (ws ++ [nextScheduleWord ws]) n

/-- Process one 64-byte block. -/
def sha256Block (h0 : H8) (block : List Nat) : H8 :=
  let ws := extendSchedule (toWords block) 48
  let st := (sha256K.zip ws).foldl sha256Round h0
  ⟨w32 (st.a + h0.a), w32 (st.b + h0.b), w32 (st.c + h0.c), w32 (st.d + h0.d),
   w32 (st.e + h0.e), w32 (st.f + h0.f), w32 (st.g + h0.g), w32 (st.h + h0.h)⟩

/-- Big-endian bytes of the 64-bit message bit length. -/
def lengthBytes (bitLen : Nat) : List Nat :=
  [bitLen / 2 ^ 56 % 256, bitLen / 2 ^ 48 % 256, bitLen / 2 ^ 40 % 256,
   bitLen / 2 ^ 32 % 256, bitLen / 2 ^ 24 % 256, bitLen / 2 ^ 16 % 256,
   bitLen / 2 ^ 8 % 256, bitLen % 256]

/-- SHA-256 padding: a `0x80` byte, zeros to 56 mod 64, then the bit length. -/
def padMessage (msg : List Nat) : List Nat :=
  msg ++ 0x80 :: (List.replicate ((119 - msg.length % 64) % 64) 0 ++
    lengthBytes (8 * msg.length))

/-- Structural worker for `toBlocks`; each step consumes at least one byte,
so fuel equal to the length suffices. -/
def toBlocksGo : Nat → List Nat → List (List Nat)
  | _, [] => []
  | 0, _ :: _ => []
  | fuel + 1, x :: r => ((x :: r).take 64) :: toBlocksGo fuel ((x :: r).drop 64)

/-- Split into 64-byte blocks. -/
def toBlocks (l : List Nat) : List (List Nat) := toBlocksGo l.length l

/-- Big-endian bytes of a 32-bit word. -/
def wordBytes (w : Nat) : List Nat :=
  [w / 2 ^ 24 % 256, w / 2 ^ 16 % 256, w / 2 ^ 8 % 256, w % 256]

/-- SHA-256 digest (32 bytes) of a byte sequence. -/
def sha256 (msg : List Nat) : List Nat :=
  let hf := (toBlocks (padMessage msg)).foldl sha256Block sha256H0
  wordBytes hf.a ++ wordBytes hf.b ++ wordBytes hf.c ++ wordBytes hf.d ++
    wordBytes hf.e ++ wordBytes hf.f ++ wordBytes hf.g ++ wordBytes hf.h

/-- The sixteen lowercase hexadecimal digits, indexable by value. -/
def hexCharOf : Nat → Char
  | 0 => '0' | 1 => '1' | 2 => '2' | 3 => '3'
  | 4 => '4' | 5 => '5' | 6 => '6' | 7 => '7'
  | 8 => '8' | 9 => '9' | 10 => 'a' | 11 => 'b'
  | 12 => 'c' | 13 => 'd' | 14 => 'e' | _ => 'f'

/-- Lowercase hexadecimal rendering of a byte list, two digits per byte:
model of `Hash.digest('hex')`. -/
def hexDigest (bytes : List Nat) : String :=
  String.mk (bytes.flatMap (fun b => [hexCharOf (b / 16 % 16), hexCharOf (b % 16)]))

/-- The digit characters of `hexDigest` are always lowercase hex digits. -/
theorem hexCharOf_mem (m : Nat) :
    hexCharOf (m % 16) ∈ "0123456789abcdef".toList := by
  have hb : m % 16 < 16 := Nat.mod_lt _ (by omega)
  have : ∀ k, k < 16 → hexCharOf k ∈ "0123456789abcdef".toList := by decide
  exact this (m % 16) hb

theorem hexDigest_chars (bytes : List Nat) :
    ∀ c ∈ (hexDigest bytes).toList, c ∈ "0123456789abcdef".toList := by
  intro c hc
  unfold hexDigest at hc
  simp only [String.toList] at hc
  rw [List.mem_flatMap] at hc
  obtain ⟨b, _, hcb⟩ := hc
  simp only [List.mem_cons, List.not_mem_nil, or_false] at hcb
  rcases hcb with h | h
  · exact h ▸ hexCharOf_mem (b / 16)
  · exact h ▸ hexCharOf_mem b

theorem sha256_length (msg : List Nat) : (sha256 msg).length = 32 := by
  simp [sha256, wordBytes]

theorem hexDigest_sha256_length (msg : List Nat) :
    (hexDigest (sha256 msg)).toList.length = 64 := by
  unfold hexDigest
  simp only [String.toList]
  rw [List.length_flatMap]
  have key : ∀ l : List Nat,
      (l.map (List.length ∘ fun b =>
        ([hexCharOf (b / 16 % 16), hexCharOf (b % 16)] : List Char))).sum
        = 2 * l.length := by
    intro l
    induction l with
    | nil => simp
    | cons x r ih => simp only [List.map_cons, List.sum_cons, ih]; simp; ring
  rw [key, sha256_length]

/-! ### Session state, handler outcomes, and the handlers -/

/-- Session state: the mutable current directory, the (external) filesystem
the handlers act on, and the greeting username parsed from `--username=`. -/
structure State where
  currentDir : FmPath
  fs : FS
  username : String
  deriving DecidableEq, Repr

/-- Result of dispatching one input line: the state afterwards, the lines
printed with `console.log`, whether a JavaScript exception escaped the handler
(so the async callback's promise rejected with nothing printed by the
handler), and whether `process.exit` was reached. -/
structure Outcome where
  state : State
  output : List String
  thrown : Bool
  exited : Bool
  deriving DecidableEq, Repr

/-- Normal completion with printed lines. -/
def done (st : State) (out : List String) : Outcome :=
  ⟨st, out, false, false⟩

/-- A JavaScript exception escaped the handler. -/
def threw (st : State) : Outcome :=
  ⟨st, [], true, false⟩

/-- Model of `path.resolve(currentDir, arg)` where `arg` is `args[i]`:
`none` is JavaScript `undefined`, on which `path.resolve` throws a TypeError. -/
def resolveArg (cur : FmPath) : Option String → Option FmPath
  | none => none
  | some s => some (resolvePath cur s)

/-- Host environment constants surfaced by the `os` command.  They are inputs
of the environment, not program logic; fixed representative values. -/
def hostHomedir : FmPath := ["home", "user"]
def hostUsername : String := "user"
def hostArch : String := "x64"
def hostEOLLiteral : String := "\"\\n\""
def hostCpusReport : List String := ["Total CPUs: 1"]

/-- `exitProgram`: farewell message, then `process.exit()`. -/
def exitProgram (st : State) : Outcome :=
  ⟨st, ["Thank you for using File Manager, " ++ st.username ++ ", goodbye!"],
   false, true⟩

/-- `navigateUp`: unless the current directory equals its filesystem root,
replace it by `path.resolve(currentDir, '..')` and print it. -/
def navigateUp (st : State) : Outcome :=
  if st.currentDir ≠ [] then
    let nd := resolvePath st.currentDir ".."
    done { st with currentDir := nd } ["You are currently in " ++ pathToString nd]
  else
    done st ["You are at the root directory."]

/-- `changeDirectory`: resolve, `lstat`, adopt the path only when the stat
reports a directory; every failure (TypeError on a missing argument, ENOENT,
non-directory) is caught and prints `Invalid input`. -/
def changeDirectory (st : State) (a : Option String) : Outcome :=
  match resolveArg st.currentDir a with
  | none => done st ["Invalid input"]
  | some nd =>
    match lstatEntry st.fs nd with
    | some e =>
      if e.isDirectory then
        done { st with currentDir := nd }
          ["You are currently in " ++ pathToString nd]
      else done st ["Invalid input"]
    | none => done st ["Invalid input"]

/-- Entries of the directory `p`: the stored paths directly below it. -/
def childEntries (fs : FS) (p : FmPath) : List (FmPath × Entry) :=
  fs.entries.filter (fun q => ¬ q.1 = [] ∧ q.1.dropLast = p)

/-- One `console.table` row, name and kind; the exact tabular rendering of
`console.table` is display-only and modelled as one line per entry. -/
def tableRow (q : FmPath × Entry) : String :=
  (q.1.getLastD "") ++ " " ++ (if q.2.isDirectory then "directory" else "file")

/-- `listFiles`: `fs.readdir(currentDir, withFileTypes)` then `console.table`;
any read failure prints `Operation failed`. -/
def listFiles (st : State) : Outcome :=
  if isDirAt st.fs st.currentDir then
    done st ((childEntries st.fs st.currentDir).map tableRow)
  else done st ["Operation failed"]

/-- Rendering of raw bytes piped to `process.stdout` by `cat`; the byte-level
stdout encoding is opaque to every claim. -/
def catOutput (c : List Nat) : String := toString c

/-- `readFile` (`cat`): `path.resolve` on a missing argument throws outside
any try/catch; a read-stream error prints `Operation failed`. -/
def readFile (st : State) (a : Option String) : Outcome :=
  match resolveArg st.currentDir a with
  | none => threw st
  | some p =>
    match fsReadFile st.fs p with
    | none => done st ["Operation failed"]
    | some c => done st [catOutput c]

/-- `createFile` (`add`): `fs.writeFile(fullPath, '')` then `File created`;
the resolve is outside the try block, the write inside. -/
def createFile (st : State) (a : Option String) : Outcome :=
  match resolveArg st.currentDir a with
  | none => threw st
  | some p =>
    match fsWriteFile st.fs p [] with
    | some fs' => done { st with fs := fs' } ["File created"]
    | none => done st ["Operation failed"]

/-- `renameFile` (`rn`): both resolves are outside the try block. -/
def renameFile (st : State) (a b : Option String) : Outcome :=
  match resolveArg st.currentDir a with
  | none => threw st
  | some po =>
    match resolveArg st.currentDir b with
    | none => threw st
    | some pn =>
      match fsRename st.fs po pn with
      | some fs' => done { st with fs := fs' } ["File renamed"]
      | none => done st ["Operation failed"]

/-- `copyFile` (`cp`): a read stream piped into a write stream, each with an
`error` listener printing `Operation failed`.  Modelled atomically: on a read
error the write stream has still been opened, truncating / creating the
destination when that is possible. -/
def copyFile (st : State) (a b : Option String) : Outcome :=
  match resolveArg st.currentDir a with
  | none => threw st
  | some ps =>
    match resolveArg st.currentDir b with
    | none => threw st
    | some pd =>
      match fsReadFile st.fs ps with
      | some c =>
        match fsWriteFile st.fs pd c with
        | some fs' => done { st with fs := fs' } []
        | none => done st ["Operation failed"]
      | none =>
        match fsWriteFile st.fs pd [] with
        | some fs' => done { st with fs := fs' } ["Operation failed"]
        | none => done st ["Operation failed", "Operation failed"]

/-- `deleteFile` (`rm`): the resolve is outside the try block, the unlink
inside. -/
def deleteFile (st : State) (a : Option String) : Outcome :=
  match resolveArg st.currentDir a with
  | none => threw st
  | some p =>
    match fsUnlink st.fs p with
    | some fs' => done { st with fs := fs' } ["File deleted"]
    | none => done st ["Operation failed"]

/-- `moveFile` (`mv`): `await copyFile(source, destination)` then
`await deleteFile(source)`; a rejection of the copy propagates and skips the
delete. -/
def moveFile (st : State) (a b : Option String) : Outcome :=
  let r1 := copyFile st a b
  if r1.thrown then r1
  else
    let r2 := deleteFile r1.state a
    ⟨r2.state, r1.output ++ r2.output, r2.thrown, false⟩

/-- `handleOSCommand` (`os`): informational host values; unknown or missing
flag prints `Invalid input`. -/
def handleOSCommand (st : State) (a : Option String) : Outcome :=
  match a with
  | some "--EOL" => done st [hostEOLLiteral]
  | some "--cpus" => done st hostCpusReport
  | some "--homedir" => done st [pathToString hostHomedir]
  | some "--username" => done st [hostUsername]
  | some "--architecture" => done st [hostArch]
  | _ => done st ["Invalid input"]

/-- `calculateHash` (`hash`): the resolve is outside any try; the stream is
hashed chunk by chunk with SHA-256 and the hex digest printed on `end`; a
stream error prints `Operation failed`. -/
def calculateHash (st : State) (a : Option String) : Outcome :=
  match resolveArg st.currentDir a with
  | none => threw st
  | some p =>
    match fsReadFile st.fs p with
    | none => done st ["Operation failed"]
    | some c => done st [hexDigest (sha256 c)]

/-- `compressFile` (`compress`): read stream → Brotli compressor → write
stream, with no `error` listener on any stage: a stream failure escapes the
handler. -/
def compressFile (st : State) (a b : Option String) : Outcome :=
  match resolveArg st.currentDir a with
  | none => threw st
  | some ps =>
    match resolveArg st.currentDir b with
    | none => threw st
    | some pd =>
      match fsReadFile st.fs ps with
      | none => threw st
      | some c =>
        match fsWriteFile st.fs pd (brotliCompress c) with
        | some fs' => done { st with fs := fs' } []
        | none => threw st

/-- `decompressFile` (`decompress`): inverse pipeline, equally without error
listeners; invalid compressed input is a decoder stream error. -/
def decompressFile (st : State) (a b : Option String) : Outcome :=
  match resolveArg st.currentDir a with
  | none => threw st
  | some ps =>
    match resolveArg st.currentDir b with
    | none => threw st
    | some pd =>
      match fsReadFile st.fs ps with
      | none => threw st
      | some c =>
        match brotliDecompress c with
        | none => threw st
        | some d =>
          match fsWriteFile st.fs pd d with
          | some fs' => done { st with fs := fs' } []
          | none => threw st

/-- The `switch (command)` of the line handler. -/
def dispatch (command : String) (args : List String) (st : State) : Outcome :=
  match command with
  | ".exit" => exitProgram st
  | "up" => navigateUp st
  | "cd" => changeDirectory st args[0]?
  | "ls" => listFiles st
  | "cat" => readFile st args[0]?
  | "add" => createFile st args[0]?
  | "rn" => renameFile st args[0]? args[1]?
  | "cp" => copyFile st args[0]? args[1]?
  | "mv" => moveFile st args[0]? args[1]?
  | "rm" => deleteFile st args[0]?
  | "os" => handleOSCommand st args[0]?
  | "hash" => calculateHash st args[0]?
  | "compress" => compressFile st args[0]? args[1]?
  | "decompress" => decompressFile st args[0]? args[1]?
  | _ => done st ["Invalid input"]

/-- One turn of the command loop on an input line. -/
def step (st : State) (line : String) : Outcome :=
  dispatch (parseLine line).1 (parseLine line).2 st

/-- The verbs the switch statement recognises. -/
def knownCommands : List String :=
  [".exit", "up", "cd", "ls", "cat", "add", "rn", "cp", "mv", "rm", "os",
   "hash", "compress", "decompress"]

/-! ### Helper lemmas about the filesystem primitives and the handlers -/

theorem fsWriteFile_lookup (fs : FS) (p : FmPath) (c : List Nat) (fs' : FS)
    (h : fsWriteFile fs p c = some fs') : lookupFS fs' p = some (.file c) := by
  unfold fsWriteFile at h
  by_cases hd : p ∈ fs.denied
  · rw [if_pos hd] at h; exact absurd h (by simp)
  · rw [if_neg hd] at h
    by_cases hr : p = []
    · rw [if_pos hr] at h; exact absurd h (by simp)
    · rw [if_neg hr] at h
      cases he : lookupFS fs p with
      | none =>
        rw [he] at h
        by_cases hp : isDirAt fs p.dropLast
        · rw [if_pos hp] at h
          cases h
          rw [lookupFS_setEntry]
          simp
        · rw [if_neg hp] at h; exact absurd h (by simp)
      | some e =>
        rw [he] at h
        cases e with
        | file c0 =>
          cases h
          rw [lookupFS_setEntry]
          simp
        | dir => exact absurd h (by simp)
        | symlink t => exact absurd h (by simp)

theorem fsWriteFile_read (fs : FS) (p : FmPath) (c : List Nat) (fs' : FS)
    (h : fsWriteFile fs p c = some fs') : fsReadFile fs' p = some c := by
  unfold fsReadFile
  rw [fsWriteFile_lookup fs p c fs' h]

theorem copyFile_not_thrown (st : State) (a b : String) :
    (copyFile st (some a) (some b)).thrown = false := by
  unfold copyFile
  simp only [resolveArg]
  repeat' split
  all_goals rfl

theorem deleteFile_not_thrown (st : State) (a : String) :
    (deleteFile st (some a)).thrown = false := by
  unfold deleteFile
  simp only [resolveArg]
  repeat' split
  all_goals rfl

theorem listFiles_currentDir (st : State) :
    (listFiles st).state.currentDir = st.currentDir := by
  unfold listFiles
  split <;> rfl

theorem readFile_currentDir (st : State) (a : Option String) :
    (readFile st a).state.currentDir = st.currentDir := by
  unfold readFile
  repeat' split
  all_goals rfl

theorem createFile_currentDir (st : State) (a : Option String) :
    (createFile st a).state.currentDir = st.currentDir := by
  unfold createFile
  repeat' split
  all_goals rfl

theorem renameFile_currentDir (st : State) (a b : Option String) :
    (renameFile st a b).state.currentDir = st.currentDir := by
  unfold renameFile
  repeat' split
  all_goals rfl

theorem copyFile_currentDir (st : State) (a b : Option String) :
    (copyFile st a b).state.currentDir = st.currentDir := by
  unfold copyFile
  repeat' split
  all_goals rfl

theorem deleteFile_currentDir (st : State) (a : Option String) :
    (deleteFile st a).state.currentDir = st.currentDir := by
  unfold deleteFile
  repeat' split
  all_goals rfl

theorem moveFile_currentDir (st : State) (a b : Option String) :
    (moveFile st a b).state.currentDir = st.currentDir := by
  unfold moveFile
  by_cases h : (copyFile st a b).thrown
  · rw [if_pos h]
    exact copyFile_currentDir st a b
  · rw [if_neg h]
    simp only
    rw [deleteFile_currentDir, copyFile_currentDir]

theorem handleOSCommand_state (st : State) (a : Option String) :
    (handleOSCommand st a).state = st := by
  unfold handleOSCommand
  split <;> rfl

theorem calculateHash_state (st : State) (a : Option String) :
    (calculateHash st a).state = st := by
  unfold calculateHash
  repeat' split
  all_goals rfl

theorem compressFile_currentDir (st : State) (a b : Option String) :
    (compressFile st a b).state.currentDir = st.currentDir := by
  unfold compressFile
  repeat' split
  all_goals rfl

theorem decompressFile_currentDir (st : State) (a b : Option String) :
    (decompressFile st a b).state.currentDir = st.currentDir := by
  unfold decompressFile
  repeat' split
  all_goals rfl

theorem resolvePath_dotdot (p : FmPath) : resolvePath p ".." = p.dropLast := by
  show normSegs p [".."] = p.dropLast
  simp [normSegs]

/-! ### Concrete sample session used by witnesses and counterexamples -/

/-- Sample filesystem: a home tree with a regular file `f` (bytes 1,2,3), a
subdirectory `d`, a symlink `ln` pointing at `d`, and a file `locked` on
which mutating operations are permission-denied. -/
def sampleFS : FS :=
  ⟨[(["home"], .dir), (["home", "user"], .dir),
    (["home", "user", "f"], .file [1, 2, 3]),
    (["home", "user", "d"], .dir),
    (["home", "user", "ln"], .symlink ["home", "user", "d"]),
    (["home", "user", "locked"], .file [7])],
   [["home", "user", "locked"]]⟩

/-- Sample session state with current directory `/home/user`. -/
def sampleState : State := ⟨["home", "user"], sampleFS, "User"⟩

/-- Sample session state sitting at the filesystem root. -/
def rootState : State := ⟨[], sampleFS, "User"⟩

/-! ### The claims -/

/-- C8: for every path argument that resolves to a symbolic link whose target
is an existing directory, `cd` prints `Invalid input` and leaves the session
state unchanged, because the existence check uses `lstat`, which reports the
link itself rather than the directory it points to. -/
theorem c8_cd_symlink (st : State) (s : String) (tgt : FmPath)
    (hln : lookupFS st.fs (resolvePath st.currentDir s) = some (.symlink tgt))
    (hroot : resolvePath st.currentDir s ≠ [])
    (_htgt : isDirAt st.fs tgt = true) :
    dispatch "cd" [s] st = done st ["Invalid input"] := by
  show changeDirectory st (some s) = _
  unfold changeDirectory
  simp only [resolveArg]
  unfold lstatEntry
  rw [if_neg hroot, hln]
  rfl

/-- Witness for C8 on the sample state: `cd ln` where `ln` is a symlink to
the existing directory `d`. -/
theorem c8_cd_symlink_witness :
    dispatch "cd" ["ln"] sampleState = done sampleState ["Invalid input"] :=
  c8_cd_symlink sampleState "ln" ["home", "user", "d"] (by decide) (by decide)
    (by decide)

/-- C9: for every path argument that resolves to an existing directory, `rm`
prints `Operation failed` and the whole session state (hence the directory
and its contents) is unchanged, because deletion uses `unlink`, which only
removes files. -/
theorem c9_rm_directory (st : State) (s : String)
    (hdir : lookupFS st.fs (resolvePath st.currentDir s) = some .dir) :
    dispatch "rm" [s] st = done st ["Operation failed"] := by
  show deleteFile st (some s) = _
  unfold deleteFile
  simp only [resolveArg]
  have hu : fsUnlink st.fs (resolvePath st.currentDir s) = none := by
    unfold fsUnlink
    by_cases hd : resolvePath st.currentDir s ∈ st.fs.denied
    · rw [if_pos hd]
    · rw [if_neg hd, hdir]
  rw [hu]

/-- Witness for C9 on the sample state: `rm d` where `d` is a directory. -/
theorem c9_rm_directory_witness :
    dispatch "rm" ["d"] sampleState = done sampleState ["Operation failed"] :=
  c9_rm_directory sampleState "d" (by decide)

/-- C10: an input line that is empty or all whitespace is trimmed to the
empty string, splits to an empty verb, and falls to the unknown-command
branch: `Invalid input` is printed and the session state is unchanged. -/
theorem c10_blank_line (st : State) (line : String)
    (h : ∀ ch ∈ line.toList, ch.isWhitespace) :
    step st line = done st ["Invalid input"] := by
  unfold step parseLine
  rw [jsTrim_all_whitespace line h]
  rfl

/-- Witness for C10: a line of two spaces on the sample state. -/
theorem c10_blank_line_witness :
    step sampleState "  " = done sampleState ["Invalid input"] :=
  c10_blank_line sampleState "  " (by decide)

/-- C5: `up` at a non-root current directory replaces it with its parent and
prints the resulting current directory; at the filesystem root it leaves the
current directory unchanged and prints the root notice. -/
theorem c5_up (st : State) :
    (st.currentDir ≠ [] →
      dispatch "up" [] st =
        done { st with currentDir := st.currentDir.dropLast }
          ["You are currently in " ++ pathToString st.currentDir.dropLast]) ∧
    (st.currentDir = [] →
      dispatch "up" [] st = done st ["You are at the root directory."]) := by
  constructor
  · intro h
    show navigateUp st = _
    unfold navigateUp
    rw [if_pos h]
    simp only [resolvePath_dotdot]
  · intro h
    show navigateUp st = _
    unfold navigateUp
    rw [if_neg (by simp [h])]

/-- Witness for C5: both branches, on the sample state and at the root. -/
theorem c5_up_witness :
    dispatch "up" [] sampleState =
      done { sampleState with currentDir := sampleState.currentDir.dropLast }
        ["You are currently in " ++
          pathToString sampleState.currentDir.dropLast] ∧
    dispatch "up" [] rootState =
      done rootState ["You are at the root directory."] :=
  ⟨(c5_up sampleState).1 (by decide), (c5_up rootState).2 (by decide)⟩

/-- C6: `hash` on a readable file prints exactly the lowercase hexadecimal
SHA-256 digest of its content (64 lowercase hex digits), leaves the state
unchanged, so a repeated invocation prints the identical digest; a stream
read error prints `Operation failed` instead. -/
theorem c6_hash (st : State) (s : String) :
    (∀ c, fsReadFile st.fs (resolvePath st.currentDir s) = some c →
      dispatch "hash" [s] st = done st [hexDigest (sha256 c)] ∧
      (∀ ch ∈ (hexDigest (sha256 c)).toList,
        ch ∈ "0123456789abcdef".toList) ∧
      (hexDigest (sha256 c)).toList.length = 64 ∧
      (dispatch "hash" [s] (dispatch "hash" [s] st).state).output =
        (dispatch "hash" [s] st).output) ∧
    (fsReadFile st.fs (resolvePath st.currentDir s) = none →
      dispatch "hash" [s] st = done st ["Operation failed"]) := by
  constructor
  · intro c hc
    have hd : dispatch "hash" [s] st = done st [hexDigest (sha256 c)] := by
      show calculateHash st (some s) = _
      unfold calculateHash
      simp only [resolveArg]
      rw [hc]
    have hst : (dispatch "hash" [s] st).state = st :=
      calculateHash_state st (some s)
    refine ⟨hd, hexDigest_chars _, hexDigest_sha256_length _, ?_⟩
    rw [hst]
  · intro h
    show calculateHash st (some s) = _
    unfold calculateHash
    simp only [resolveArg]
    rw [h]

/-- Witness for C6: hashing the sample file, and a missing file. -/
theorem c6_hash_witness :
    dispatch "hash" ["f"] sampleState =
      done sampleState [hexDigest (sha256 [1, 2, 3])] ∧
    dispatch "hash" ["nope"] sampleState =
      done sampleState ["Operation failed"] :=
  ⟨((c6_hash sampleState "f").1 [1, 2, 3] (by decide)).1,
   (c6_hash sampleState "nope").2 (by decide)⟩

/-- C7: an unknown verb prints exactly `Invalid input` with the whole session
state unchanged, and every command other than `cd` and `up` leaves the
current directory unchanged. -/
theorem c7_unknown_and_frame (cmd : String) (args : List String) (st : State) :
    (cmd ∉ knownCommands → dispatch cmd args st = done st ["Invalid input"]) ∧
    (cmd ≠ "cd" → cmd ≠ "up" →
      (dispatch cmd args st).state.currentDir = st.currentDir) := by
  constructor
  · intro h
    unfold dispatch
    split <;> simp_all [knownCommands]
  · intro h1 h2
    unfold dispatch
    split <;>
      first
        | rfl
        | exact absurd (by assumption) h1
        | exact absurd (by assumption) h2
        | exact listFiles_currentDir st
        | exact readFile_currentDir st _
        | exact createFile_currentDir st _
        | exact renameFile_currentDir st _ _
        | exact copyFile_currentDir st _ _
        | exact moveFile_currentDir st _ _
        | exact deleteFile_currentDir st _
        | (rw [handleOSCommand_state])
        | (rw [calculateHash_state])
        | exact compressFile_currentDir st _ _
        | exact decompressFile_currentDir st _ _
        | simp_all

/-- Witness for C7: the unknown verb `frobnicate`, and the frame property for
a `hash` invocation, on the sample state. -/
theorem c7_unknown_and_frame_witness :
    dispatch "frobnicate" [] sampleState =
      done sampleState ["Invalid input"] ∧
    (dispatch "hash" ["f"] sampleState).state.currentDir =
      sampleState.currentDir :=
  ⟨(c7_unknown_and_frame "frobnicate" [] sampleState).1 (by decide),
   (c7_unknown_and_frame "hash" ["f"] sampleState).2 (by decide) (by decide)⟩

/-- C1 counterexample: the input line `cat`, whose verb is known but whose
required path argument is absent, prints nothing at all — in particular not
`Invalid input` — because `path.resolve(currentDir, undefined)` throws a
TypeError outside any try/catch and the exception escapes the handler. -/
theorem c1_counterexample :
    (step sampleState "cat").thrown = true ∧
    (step sampleState "cat").output = [] :=
  ⟨by decide, by decide⟩

/-- C1 amended: `cd` and `os` report an absent required argument with the
exact message `Invalid input` and the loop continues — `cd` because its
handler resolves the path inside try/catch, `os` because an undefined flag
falls to its switch default; but for the path-taking file commands an absent
required argument (`cat` with no path, `rn` with one argument, `add`, `rm`,
`hash`, `cp`, `mv`, `compress`, `decompress` with none) makes `path.resolve`
throw outside any try/catch, so the handler prints nothing and the rejection
escapes the command loop unhandled. -/
theorem c1_missing_argument (st : State) :
    dispatch "cd" [] st = done st ["Invalid input"] ∧
    dispatch "os" [] st = done st ["Invalid input"] ∧
    dispatch "cat" [] st = threw st ∧
    (∀ a : String, dispatch "rn" [a] st = threw st) ∧
    dispatch "add" [] st = threw st ∧
    dispatch "rm" [] st = threw st ∧
    dispatch "hash" [] st = threw st ∧
    dispatch "cp" [] st = threw st ∧
    dispatch "mv" [] st = threw st ∧
    dispatch "compress" [] st = threw st ∧
    dispatch "decompress" [] st = threw st :=
  ⟨rfl, rfl, rfl, fun _ => rfl, rfl, rfl, rfl, rfl, rfl, rfl, rfl⟩

/-- C2 counterexample: with a file of content `[1, 2, 3]` already present at
the resolved path, `add f` does not print `Operation failed`: it prints
`File created` and truncates the existing file to empty content, changing
filesystem state. -/
theorem c2_counterexample :
    lookupFS sampleState.fs ["home", "user", "f"] = some (.file [1, 2, 3]) ∧
    (step sampleState "add f").output = ["File created"] ∧
    lookupFS (step sampleState "add f").state.fs ["home", "user", "f"] =
      some (.file []) :=
  ⟨by decide, by decide, by decide⟩

/-- C2 amended: `add <name>` writes an empty file at the resolved path —
creating it, or truncating an existing regular file — and prints
`File created`; it prints `Operation failed` with the whole state unchanged
exactly when the write itself fails (permission denial, missing parent
directory, or a directory/symlink at the path). -/
theorem c2_add (st : State) (s : String) :
    (fsWriteFile st.fs (resolvePath st.currentDir s) [] ≠ none →
      (dispatch "add" [s] st).output = ["File created"] ∧
      lookupFS (dispatch "add" [s] st).state.fs
        (resolvePath st.currentDir s) = some (.file []) ∧
      (dispatch "add" [s] st).state.currentDir = st.currentDir) ∧
    (fsWriteFile st.fs (resolvePath st.currentDir s) [] = none →
      dispatch "add" [s] st = done st ["Operation failed"]) := by
  constructor
  · intro h
    obtain ⟨fs', hw⟩ := Option.ne_none_iff_exists'.mp h
    have hd : dispatch "add" [s] st =
        done { st with fs := fs' } ["File created"] := by
      show createFile st (some s) = _
      unfold createFile
      simp only [resolveArg]
      rw [hw]
    rw [hd]
    exact ⟨rfl, fsWriteFile_lookup _ _ _ _ hw, rfl⟩
  · intro h
    show createFile st (some s) = _
    unfold createFile
    simp only [resolveArg]
    rw [h]

/-- Witness for C2 (amended): `add new` on the sample state creates the empty
file. -/
theorem c2_add_witness :
    (dispatch "add" ["new"] sampleState).output = ["File created"] ∧
    lookupFS (dispatch "add" ["new"] sampleState).state.fs
      (resolvePath sampleState.currentDir "new") = some (.file []) := by
  have hc := (c2_add sampleState "new").1 (by decide)
  exact ⟨hc.1, hc.2.1⟩

/-- C3: `mv <src> <dst>` is the sequential composition of the `cp <src>
<dst>` command followed by the `rm <src>` command — the copy runs first, then
the delete — and when the copy succeeded but the delete fails, the copied
destination file still exists with the source's content (non-atomic
partial-result behavior). -/
theorem c3_mv_is_cp_then_rm (st : State) (a b : String) :
    (dispatch "mv" [a, b] st =
      ⟨(dispatch "rm" [a] (dispatch "cp" [a, b] st).state).state,
       (dispatch "cp" [a, b] st).output ++
         (dispatch "rm" [a] (dispatch "cp" [a, b] st).state).output,
       false, false⟩) ∧
    (∀ c, fsReadFile st.fs (resolvePath st.currentDir a) = some c →
      fsWriteFile st.fs (resolvePath st.currentDir b) c ≠ none →
      fsUnlink (dispatch "cp" [a, b] st).state.fs
        (resolvePath st.currentDir a) = none →
      lookupFS (dispatch "mv" [a, b] st).state.fs
        (resolvePath st.currentDir b) = some (.file c)) := by
  have hthrown : (copyFile st (some a) (some b)).thrown ≠ true := by
    rw [copyFile_not_thrown]
    simp
  constructor
  · show moveFile st (some a) (some b) =
      ⟨(deleteFile (copyFile st (some a) (some b)).state (some a)).state,
       (copyFile st (some a) (some b)).output ++
         (deleteFile (copyFile st (some a) (some b)).state (some a)).output,
       false, false⟩
    unfold moveFile
    rw [if_neg hthrown]
    simp only [deleteFile_not_thrown]
  · intro c hr hw hu
    obtain ⟨fs1, hw1⟩ := Option.ne_none_iff_exists'.mp hw
    have hcp : copyFile st (some a) (some b) =
        done { st with fs := fs1 } [] := by
      unfold copyFile
      simp only [resolveArg]
      rw [hr]
      dsimp only
      rw [hw1]
    have hcp' : dispatch "cp" [a, b] st = done { st with fs := fs1 } [] := hcp
    rw [hcp'] at hu
    simp only [done] at hu
    have hmv : (dispatch "mv" [a, b] st).state.fs = fs1 := by
      show (moveFile st (some a) (some b)).state.fs = fs1
      unfold moveFile
      rw [if_neg hthrown]
      simp only [hcp]
      show (deleteFile { st with fs := fs1 } (some a)).state.fs = fs1
      unfold deleteFile
      simp only [resolveArg]
      rw [hu]
      rfl
    rw [hmv]
    exact fsWriteFile_lookup _ _ _ _ hw1

/-- Witness for C3: moving the permission-denied file `locked` on the sample
state — the copy succeeds, the delete fails, and the destination keeps the
content. -/
theorem c3_mv_is_cp_then_rm_witness :
    lookupFS (dispatch "mv" ["locked", "g"] sampleState).state.fs
      (resolvePath sampleState.currentDir "g") = some (.file [7]) :=
  (c3_mv_is_cp_then_rm sampleState "locked" "g").2 [7] (by decide) (by decide)
    (by decide)

/-- C4: compressing a readable file of arbitrary byte content and
decompressing the result into a second file restores the original content
exactly (round-trip law), provided both destination writes succeed. -/
theorem c4_compress_roundtrip (st : State) (src dst f2 : String) (c : List Nat)
    (hread : fsReadFile st.fs (resolvePath st.currentDir src) = some c)
    (hwdst : fsWriteFile st.fs (resolvePath st.currentDir dst)
      (brotliCompress c) ≠ none)
    (hwf2 : fsWriteFile (dispatch "compress" [src, dst] st).state.fs
      (resolvePath st.currentDir f2) c ≠ none) :
    fsReadFile
      (dispatch "decompress" [dst, f2]
        (dispatch "compress" [src, dst] st).state).state.fs
      (resolvePath st.currentDir f2) = some c := by
  obtain ⟨fs1, h1⟩ := Option.ne_none_iff_exists'.mp hwdst
  have hcomp : dispatch "compress" [src, dst] st =
      done { st with fs := fs1 } [] := by
    show compressFile st (some src) (some dst) = _
    unfold compressFile
    simp only [resolveArg]
    rw [hread]
    dsimp only
    rw [h1]
  rw [hcomp] at hwf2 ⊢
  simp only [done] at hwf2 ⊢
  obtain ⟨fs2, h2⟩ := Option.ne_none_iff_exists'.mp hwf2
  have hread1 : fsReadFile fs1 (resolvePath st.currentDir dst) =
      some (brotliCompress c) := fsWriteFile_read _ _ _ _ h1
  have hdec : decompressFile { st with fs := fs1 } (some dst) (some f2) =
      done { st with fs := fs2 } [] := by
    unfold decompressFile
    simp only [resolveArg]
    show (match fsReadFile fs1 (resolvePath st.currentDir dst) with
      | none => threw { st with fs := fs1 }
      | some c =>
        match brotliDecompress c with
        | none => threw { st with fs := fs1 }
        | some d =>
          match fsWriteFile fs1 (resolvePath st.currentDir f2) d with
          | some fs' => done { st with fs := fs' } []
          | none => threw { st with fs := fs1 }) = done { st with fs := fs2 } []
    rw [hread1]
    dsimp only
    rw [brotli_roundtrip]
    dsimp only
    rw [h2]
  show fsReadFile
      (decompressFile { st with fs := fs1 } (some dst) (some f2)).state.fs
      (resolvePath st.currentDir f2) = some c
  rw [hdec]
  exact fsWriteFile_read _ _ _ _ h2

/-- Witness for C4: round-tripping the sample file `f` through `compress`
and `decompress` on the sample state. -/
theorem c4_compress_roundtrip_witness :
    fsReadFile
      (dispatch "decompress" ["fz", "f2"]
        (dispatch "compress" ["f", "fz"] sampleState).state).state.fs
      (resolvePath sampleState.currentDir "f2") = some [1, 2, 3] :=
  c4_compress_roundtrip sampleState "f" "fz" "f2" [1, 2, 3] (by decide)
    (by decide) (by decide)

end FileManager
